import Mathlib

/-!
Shallow embedding of the data normalization and aggregation pipeline of
`src/data.py` (msp-ice-flights-shiny), together with theorems settling the
specification claims about it.

Machine representation choices: spreadsheet cell values are modelled by the
inductive `Value` (null / numeric / string); pandas `NaN` propagation on the
numeric columns is modelled with `Option Int`; calendar days are modelled as
natural numbers (one unit = one day), which is faithful for every claim here
since the pipeline only compares, groups by, and enumerates consecutive days.
The Python string primitives used by the code (`str.strip`, `str.upper`,
`str.split`, numeric parsing) are embedded as structurally recursive functions
over the character list of the string, so that every definition evaluates
inside the kernel.
-/

namespace MspIceFlights

/-- A raw spreadsheet cell: empty, numeric, or textual. -/
inductive Value where
  | null : Value
  | num : Int → Value
  | str : String → Value
deriving DecidableEq

/-- One raw data row of the source table, after the header/title/footer
row-skipping of `load_data` (rows `2:-2`), keyed by the column names the code
uses (`to_dest` stands for the column named `To`).  The `Date` column is
represented already parsed (day number), since no claim concerns date-parse
failures. -/
structure RawRow where
  date : Nat
  deportees : Value
  deportee_observed : Value
  est_method : Option String
  days_route : Value
  airline : Option String
  to_dest : Option String
  tail : Option String
  deportees_off : Value
deriving DecidableEq

/-- A normalized flight record: one row of `df_clean` after the type coercions
and derived-column computations of `load_data`. -/
structure FlightRecord where
  date : Nat
  deportees : Option Int
  observed : Int
  estimated : Option Int
  est_method : Option String
  airline : Option String
  to_dest : Option String
  final_destination : Option String
  tail : Option String
  deportees_off : Value
deriving DecidableEq

instance {ε α : Type} [DecidableEq ε] [DecidableEq α] : DecidableEq (Except ε α) :=
  fun a b =>
    match a, b with
    | Except.ok x, Except.ok y =>
      if h : x = y then isTrue (by rw [h]) else isFalse (fun hc => by cases hc; exact h rfl)
    | Except.ok _, Except.error _ => isFalse (fun hc => by cases hc)
    | Except.error _, Except.ok _ => isFalse (fun hc => by cases hc)
    | Except.error e, Except.error f =>
      if h : e = f then isTrue (by rw [h]) else isFalse (fun hc => by cases hc; exact h rfl)

/-- Embedding of Python `str.strip`: remove leading and trailing whitespace. -/
def pyStrip (s : String) : String :=
  String.mk (((s.data.dropWhile Char.isWhitespace).reverse.dropWhile Char.isWhitespace).reverse)

/-- Embedding of Python `str.upper` for the (ASCII) airport codes involved. -/
def pyUpper (s : String) : String :=
  String.mk (s.data.map Char.toUpper)

/-- Embedding of Python `str.split(sep)` for a single-character separator. -/
def pySplit (sep : Char) (s : String) : List String :=
  (s.data.foldr
    (fun c acc =>
      if c = sep then [] :: acc
      else
        match acc with
        | [] => [[c]]
        | g :: gs => (c :: g) :: gs)
    [[]]).map String.mk

/-- Digit-string to number helper for `pyToInt`. -/
def digitsToNat (l : List Char) : Option Nat :=
  match l with
  | [] => none
  | _ =>
    if l.all Char.isDigit then
      some (l.foldl (fun acc c => acc * 10 + (c.toNat - 48)) 0)
    else none

/-- Embedding of the numeric parse `pd.to_numeric` applies to a string cell
(restricted to integer literals, which is all the claims exercise): an
optional leading minus sign followed by at least one digit. -/
def pyToInt (s : String) : Option Int :=
  match s.data with
  | '-' :: rest => (digitsToNat rest).map (fun n => -(n : Int))
  | l => (digitsToNat l).map (fun n => (n : Int))

/-- Embedding of `pd.to_numeric(col, errors='raise')` on one cell: null stays
absent (`none`), numbers pass through, an unparseable string raises. -/
def coerceRaise (v : Value) : Except String (Option Int) :=
  match v with
  | Value.null => Except.ok none
  | Value.num n => Except.ok (some n)
  | Value.str s =>
    match pyToInt s with
    | some n => Except.ok (some n)
    | none => Except.error ("Unable to parse string " ++ s)

/-- Embedding of `pd.to_numeric(col, errors='coerce')` on one cell: null and
unparseable strings both become absent (`none`), never an error. -/
def coerceLenient (v : Value) : Option Int :=
  match v with
  | Value.null => none
  | Value.num n => some n
  | Value.str s => pyToInt s

/-- Embedding of the dictionary `EST_METHOD_DESCRIPTIONS` of `data.py`. -/
def EST_METHOD_DESCRIPTIONS (code : String) : Option String :=
  match code with
  | "V" => some "Formula based on the number and types of vehicles bringing detainees to the flight"
  | "A" => some "Average based on similar flights in same timeframe"
  | "O" => some "Estimate based on an observer who was present, but not directly counting"
  | _ => none

/-- Embedding of `pandas.Series.unique` (as used in `_format_est_methods`
after `dropna`): keep the first occurrence of each distinct value, in input
order. -/
def uniqueFirst {α : Type} [DecidableEq α] (l : List α) : List α :=
  l.foldl (fun acc c => if c ∈ acc then acc else acc ++ [c]) []

/-- Lexicographic comparison of character lists by code point, the order
Python `sorted` and pandas `groupby(sort=True)` use on strings. -/
def charLe : List Char → List Char → Bool
  | [], _ => true
  | _ :: _, [] => false
  | x :: xs, y :: ys => if x = y then charLe xs ys else decide (x < y)

/-- Lexicographic string comparison by code point (Python string order). -/
def strLe (a b : String) : Bool :=
  charLe a.data b.data

instance strLeDecidable : DecidableRel (fun a b : String => strLe a b = true) :=
  fun a b => inferInstanceAs (Decidable (strLe a b = true))

/-- Embedding of `_format_est_methods` of `data.py`: drop nulls, take unique
raw codes, strip whitespace, sort, map each through the closed vocabulary
dropping unmapped codes, and join with a semicolon separator. -/
def format_est_methods (methods_series : List (Option String)) : String :=
  let unique_codes := uniqueFirst (methods_series.filterMap id)
  let descriptions :=
    (List.insertionSort (fun a b : String => strLe a b = true)
      (unique_codes.map (fun c => pyStrip c))).filterMap
      EST_METHOD_DESCRIPTIONS
  if descriptions.isEmpty then "" else String.intercalate "; " descriptions

/-- Embedding of `pandas.Series.str.title` (Python `str.title`): the first
alphabetic character of each run of alphabetic characters is upper-cased, the
rest are lower-cased, other characters pass through. -/
def str_title (s : String) : String :=
  String.mk
    (s.data.foldl
      (fun (acc : List Char × Bool) c =>
        if c.isAlpha then
          (acc.1 ++ [if acc.2 then c.toLower else c.toUpper], true)
        else
          (acc.1 ++ [c], false))
      ([], false)).1

/-- Embedding of `_parse_final_destination` of `data.py`: split the route on
dashes, strip each segment and drop empty ones; the final destination is the
last stop, unless there are at least two stops and the last is `MSP`
(case-insensitive), in which case it is the second-to-last; non-string or
blank routes yield `none`. -/
def parse_final_destination (route : Value) : Option String :=
  match route with
  | Value.str s =>
    if pyStrip s = "" then none
    else
      let stops := ((pySplit '-' s).map (fun t => pyStrip t)).filter (fun t => t ≠ "")
      match stops.getLast? with
      | none => none
      | some last =>
        if 2 ≤ stops.length ∧ pyUpper last = "MSP" then
          (stops[stops.length - 2]?).map (fun t => pyUpper t)
        else
          some (pyUpper last)
  | _ => none

/-- Per-row normalization performed by `load_data` of `data.py` on `df_clean`:
coerce `Deportees` (fail-fast) and `Deportee (observed)` (fail-fast, then
`fillna(0)`), derive `Final_Destination` from the route and
`Deportees_Estimated` as total minus observed, and carry the remaining columns
through unchanged. -/
def normalizeRow (row : RawRow) : Except String FlightRecord :=
  match coerceRaise row.deportees with
  | Except.error e => Except.error e
  | Except.ok total =>
    match coerceRaise row.deportee_observed with
    | Except.error e => Except.error e
    | Except.ok observedOpt =>
      let observed := observedOpt.getD 0
      Except.ok
        { date := row.date
          deportees := total
          observed := observed
          estimated := total.map (fun t => t - observed)
          est_method := row.est_method
          airline := row.airline
          to_dest := row.to_dest
          final_destination := parse_final_destination row.days_route
          tail := row.tail
          deportees_off := row.deportees_off }

/-- Embedding of the normalization half of `load_data`: normalize every raw
row, propagating the first coercion error (pandas raises on the whole column;
row order of errors is immaterial to the claims, which only observe success
versus failure). -/
def load_data (rows : List RawRow) : Except String (List FlightRecord) :=
  rows.mapM normalizeRow

/-- One row of the gap-filled daily summary produced by `load_data`
(lines 76-104 of `data.py`): date, summed totals, and the merged
estimation-method text. -/
structure DailyRow where
  date : Nat
  deportees : Int
  observed : Int
  estimated : Int
  est_method : String
deriving DecidableEq

/-- One row of the output of `aggregate_flights_per_day`. -/
structure FlightCountRow where
  date : Nat
  flight_count : Nat
deriving DecidableEq

/-- One row of the output of `aggregate_detainees_offloaded_per_day`. -/
structure OffloadRow where
  date : Nat
  deportees_off : Int
deriving DecidableEq

/-- One row of a category-keyed aggregate (by airline / destination /
final destination / tail number). -/
structure CatRow where
  key : String
  deportees : Int
  observed : Int
  estimated : Int
  est_method : String
deriving DecidableEq

instance natLeDecidable : DecidableRel (fun a b : Nat => a ≤ b) :=
  fun a b => Nat.decLe a b

instance catRowLeDecidable : DecidableRel (fun a b : CatRow => a.deportees ≤ b.deportees) :=
  fun a b => Int.decLe _ _

/-- Python `sorted` on strings, as used by pandas for group keys. -/
def sortStrings (l : List String) : List String :=
  List.insertionSort (fun a b : String => strLe a b = true) l

/-- Sorted distinct group keys, the iteration order of a pandas
`groupby(sort=True)` over a string column. -/
def groupKeysStr (keys : List String) : List String :=
  sortStrings (uniqueFirst keys)

/-- Sorted distinct group keys over a date column. -/
def groupKeysNat (keys : List Nat) : List Nat :=
  List.insertionSort (fun a b : Nat => a ≤ b) (uniqueFirst keys)

/-- Embedding of the shared daily gap-fill pattern of `data.py` (used at
lines 86-102, 115-124 and 145-154): build the complete date range from the
minimum to the maximum date present and left-merge the existing rows onto it,
filling absent days with the given zero row. -/
def fillDaily {α : Type} (dateOf : α → Nat) (zeroAt : Nat → α) (rows : List α) : List α :=
  match rows with
  | [] => []
  | r0 :: rest =>
    let dates := (r0 :: rest).map dateOf
    let lo := dates.foldl min (dateOf r0)
    let hi := dates.foldl max (dateOf r0)
    (List.range (hi + 1 - lo)).map (fun i =>
      match (r0 :: rest).find? (fun r => dateOf r = lo + i) with
      | some r => r
      | none => zeroAt (lo + i))

/-- The minimum of the date column of a nonempty per-date aggregate
(`daily_summary['Date'].min()`). -/
def minDateOf {α : Type} (dateOf : α → Nat) (r0 : α) (rest : List α) : Nat :=
  ((r0 :: rest).map dateOf).foldl min (dateOf r0)

/-- The maximum of the date column of a nonempty per-date aggregate
(`daily_summary['Date'].max()`). -/
def maxDateOf {α : Type} (dateOf : α → Nat) (r0 : α) (rest : List α) : Nat :=
  ((r0 :: rest).map dateOf).foldl max (dateOf r0)

/-- The zero row merged in for a missing day of the daily summary
(`fillna` dictionary at lines 97-102 of `data.py`). -/
def daily_zero (d : Nat) : DailyRow :=
  { date := d, deportees := 0, observed := 0, estimated := 0, est_method := "" }

/-- Embedding of the `groupby(Date).agg(...)` step of `load_data` (lines
76-81): one row per distinct date (in ascending key order, as pandas sorts
group keys), summing the three numeric columns (pandas `sum` skips nulls) and
merging the estimation-method codes. -/
def group_daily (rs : List FlightRecord) : List DailyRow :=
  (groupKeysNat (rs.map (fun r => r.date))).map (fun d =>
    let grp := rs.filter (fun r => r.date = d)
    { date := d
      deportees := (grp.map (fun r => r.deportees.getD 0)).sum
      observed := (grp.map (fun r => r.observed)).sum
      estimated := (grp.map (fun r => r.estimated.getD 0)).sum
      est_method := format_est_methods (grp.map (fun r => r.est_method)) })

/-- Embedding of the daily-summary half of `load_data` (lines 72-104): filter
to rows with a non-null total, group by date, then gap-fill the resulting
series. -/
def daily_summary (records : List FlightRecord) : List DailyRow :=
  let non_null_detainees := records.filter (fun r => r.deportees.isSome)
  fillDaily DailyRow.date daily_zero (group_daily non_null_detainees)

/-- Embedding of `aggregate_flights_per_day` of `data.py`: count records per
date, then gap-fill with zero counts. -/
def aggregate_flights_per_day (flight_df : List FlightRecord) : List FlightCountRow :=
  let grouped := (groupKeysNat (flight_df.map (fun r => r.date))).map (fun d =>
    { date := d, flight_count := (flight_df.filter (fun r => r.date = d)).length : FlightCountRow })
  fillDaily FlightCountRow.date (fun d => { date := d, flight_count := 0 }) grouped

/-- The per-record offloaded count used by
`aggregate_detainees_offloaded_per_day`: lenient coercion, then `fillna(0)`. -/
def offloadedValue (v : Value) : Int :=
  (coerceLenient v).getD 0

/-- Embedding of `aggregate_detainees_offloaded_per_day` of `data.py`: coerce
the `Deportees Off` column leniently with nulls as 0, sum per date, then
gap-fill. -/
def aggregate_detainees_offloaded_per_day (flight_df : List FlightRecord) : List OffloadRow :=
  let grouped := (groupKeysNat (flight_df.map (fun r => r.date))).map (fun d =>
    { date := d
      deportees_off :=
        ((flight_df.filter (fun r => r.date = d)).map (fun r => offloadedValue r.deportees_off)).sum
      : OffloadRow })
  fillDaily OffloadRow.date (fun d => { date := d, deportees_off := 0 }) grouped

/-- The shared `groupby(key).agg({...}).reset_index()` reduction of the four
category aggregators of `data.py`: one row per distinct key (pandas sorts the
group keys), summing the three numeric columns and merging the
estimation-method codes. -/
def groupCat (key : FlightRecord → String) (rs : List FlightRecord) : List CatRow :=
  (groupKeysStr (rs.map key)).map (fun k =>
    let grp := rs.filter (fun r => key r = k)
    { key := k
      deportees := (grp.map (fun r => r.deportees.getD 0)).sum
      observed := (grp.map (fun r => r.observed)).sum
      estimated := (grp.map (fun r => r.estimated.getD 0)).sum
      est_method := format_est_methods (grp.map (fun r => r.est_method)) })

/-- The `sort_values('Deportees', ascending=True)` step shared by the four
category aggregators. -/
def sort_values_deportees (l : List CatRow) : List CatRow :=
  List.insertionSort (fun a b : CatRow => a.deportees ≤ b.deportees) l

/-- Embedding of `aggregate_detainees_by_airline` of `data.py`: drop
null-airline records, normalize the airline name (strip then title-case),
group by it, and sort ascending by the summed total. -/
def aggregate_detainees_by_airline (flight_df : List FlightRecord) : List CatRow :=
  let valid_airlines := flight_df.filter (fun r => r.airline.isSome)
  let normalized :=
    valid_airlines.map (fun r => { r with airline := r.airline.map (fun a => str_title (pyStrip a)) })
  sort_values_deportees (groupCat (fun r => r.airline.getD "") normalized)

/-- Embedding of `aggregate_detainees_by_destination` of `data.py`: drop
null-destination records, group by the `To` column as-is, and sort ascending
by the summed total. -/
def aggregate_detainees_by_destination (flight_df : List FlightRecord) : List CatRow :=
  let valid_destinations := flight_df.filter (fun r => r.to_dest.isSome)
  sort_values_deportees (groupCat (fun r => r.to_dest.getD "") valid_destinations)

/-- Embedding of `aggregate_detainees_by_final_destination` of `data.py`:
drop records with a null derived final destination, group by it, and sort
ascending by the summed total. -/
def aggregate_detainees_by_final_destination (flight_df : List FlightRecord) : List CatRow :=
  let valid := flight_df.filter (fun r => r.final_destination.isSome)
  sort_values_deportees (groupCat (fun r => r.final_destination.getD "") valid)

/-- Embedding of `aggregate_detainees_by_tail` of `data.py`: drop null-tail
records, strip the tail number, group by it, and sort ascending by the summed
total. -/
def aggregate_detainees_by_tail (flight_df : List FlightRecord) : List CatRow :=
  let valid := flight_df.filter (fun r => r.tail.isSome)
  let trimmed := valid.map (fun r => { r with tail := r.tail.map (fun t => pyStrip t) })
  sort_values_deportees (groupCat (fun r => r.tail.getD "") trimmed)

/-- A flight record template with every optional field absent (used to build
the concrete scenarios below). -/
def emptyRecord : FlightRecord :=
  { date := 0, deportees := none, observed := 0, estimated := none, est_method := none,
    airline := none, to_dest := none, final_destination := none, tail := none,
    deportees_off := Value.null }

/-- Raw row whose total-deportee-count cell is empty but which carries an
airline, a destination, a tail number and an offloaded count. -/
def c1_raw_row : RawRow :=
  { date := 5, deportees := Value.null, deportee_observed := Value.null, est_method := none,
    days_route := Value.null, airline := some "Delta", to_dest := some "ORD",
    tail := some "N1", deportees_off := Value.num 4 }

/-- The normalized record produced from `c1_raw_row`. -/
def c1_record : FlightRecord :=
  { emptyRecord with
    date := 5, airline := some "Delta", to_dest := some "ORD",
    tail := some "N1", deportees_off := Value.num 4 }

/-- Raw row with a parseable total but an unparseable observed-count cell. -/
def c2_raw_row : RawRow :=
  { date := 1, deportees := Value.num 10, deportee_observed := Value.str "abc",
    est_method := none, days_route := Value.null, airline := none, to_dest := none,
    tail := none, deportees_off := Value.null }

/-- Raw row whose total (3) is smaller than its observed count (5). -/
def c4_raw_row : RawRow :=
  { date := 2, deportees := Value.num 3, deportee_observed := Value.num 5, est_method := none,
    days_route := Value.null, airline := none, to_dest := none, tail := none,
    deportees_off := Value.null }

/-- The normalized record produced from `c4_raw_row`: estimated is negative. -/
def c4_record : FlightRecord :=
  { emptyRecord with
    date := 2, deportees := some 3, observed := 5, estimated := some (-2) }

/-- Scenario record: total 5, no airline. -/
def c7_null_airline : FlightRecord :=
  { emptyRecord with
    date := 1, deportees := some 5, estimated := some 5 }

/-- Scenario record: total 3, airline "Delta". -/
def c7_delta : FlightRecord :=
  { emptyRecord with
    date := 1, deportees := some 3, estimated := some 3, airline := some "Delta" }

/-- Scenario record: total 2, airline "delta". -/
def c7_delta_lower : FlightRecord :=
  { emptyRecord with
    date := 2, deportees := some 2, estimated := some 2, airline := some "delta" }

/-- Scenario record: airline with surrounding whitespace. -/
def c7_spaced : FlightRecord :=
  { emptyRecord with
    date := 1, deportees := some 2, estimated := some 2, airline := some "  delta " }

/-- Scenario record: destination "ORD", total 2. -/
def c9_ord : FlightRecord :=
  { emptyRecord with
    date := 1, deportees := some 2, estimated := some 2, to_dest := some "ORD" }

/-- Scenario record: destination " ORD" (leading space), total 1. -/
def c9_ord_spaced : FlightRecord :=
  { emptyRecord with
    date := 1, deportees := some 1, estimated := some 1, to_dest := some " ORD" }

/-- Scenario record: tail number with surrounding whitespace. -/
def c9_tail_spaced : FlightRecord :=
  { emptyRecord with
    date := 1, deportees := some 1, estimated := some 1, tail := some "  N123 " }

/-! Helper lemmas about the embedded primitives. -/

lemma charLe_total : ∀ a b : List Char, charLe a b = true ∨ charLe b a = true := by
  intro a
  induction a with
  | nil => intro b; left; rfl
  | cons x xs ih =>
    intro b
    cases b with
    | nil => right; rfl
    | cons y ys =>
      by_cases hxy : x = y
      · subst hxy
        simpa [charLe] using ih ys
      · have hyx : y ≠ x := fun h => hxy h.symm
        rcases lt_or_gt_of_ne hxy with h | h
        · left; simp [charLe, hxy, h]
        · right; simp [charLe, hyx, h]

lemma charLe_trans : ∀ a b c : List Char,
    charLe a b = true → charLe b c = true → charLe a c = true := by
  intro a
  induction a with
  | nil => intro b c _ _; rfl
  | cons x xs ih =>
    intro b c hab hbc
    cases b with
    | nil => simp [charLe] at hab
    | cons y ys =>
      cases c with
      | nil => simp [charLe] at hbc
      | cons z zs =>
        simp only [charLe] at hab hbc ⊢
        by_cases hxy : x = y <;> by_cases hyz : y = z
        · have hxz : x = z := hxy.trans hyz
          rw [if_pos hxy] at hab
          rw [if_pos hyz] at hbc
          rw [if_pos hxz]
          exact ih ys zs hab hbc
        · have hxz : x ≠ z := by rw [hxy]; exact hyz
          rw [if_neg hyz] at hbc
          rw [if_neg hxz, hxy]
          exact hbc
        · have hxz : x ≠ z := by rw [← hyz]; exact hxy
          rw [if_neg hxy] at hab
          rw [if_neg hxz, ← hyz]
          exact hab
        · rw [if_neg hxy] at hab
          rw [if_neg hyz] at hbc
          have hxz' : x < z := lt_trans (of_decide_eq_true hab) (of_decide_eq_true hbc)
          rw [if_neg (ne_of_lt hxz')]
          exact decide_eq_true hxz'

lemma charLe_antisymm : ∀ a b : List Char,
    charLe a b = true → charLe b a = true → a = b := by
  intro a
  induction a with
  | nil =>
    intro b _ hba
    cases b with
    | nil => rfl
    | cons y ys => simp [charLe] at hba
  | cons x xs ih =>
    intro b hab hba
    cases b with
    | nil => simp [charLe] at hab
    | cons y ys =>
      by_cases hxy : x = y
      · subst hxy
        simp only [charLe, if_pos rfl] at hab hba
        rw [ih ys hab hba]
      · have hyx : y ≠ x := fun h => hxy h.symm
        simp only [charLe, if_neg hxy] at hab
        simp only [charLe, if_neg hyx] at hba
        exact absurd (of_decide_eq_true hba) (not_lt_of_gt (of_decide_eq_true hab))

instance : IsTotal String (fun a b => strLe a b = true) :=
  ⟨fun a b => charLe_total a.data b.data⟩

instance : IsTrans String (fun a b => strLe a b = true) :=
  ⟨fun a b c => charLe_trans a.data b.data c.data⟩

instance : IsAntisymm String (fun a b => strLe a b = true) :=
  ⟨fun a b h1 h2 => by
    cases a with
    | mk da =>
      cases b with
      | mk db => exact congrArg String.mk (charLe_antisymm da db h1 h2)⟩

instance : IsTotal CatRow (fun a b => a.deportees ≤ b.deportees) :=
  ⟨fun a b => le_total a.deportees b.deportees⟩

instance : IsTrans CatRow (fun a b => a.deportees ≤ b.deportees) :=
  ⟨fun _ _ _ hab hbc => le_trans hab hbc⟩

lemma uniqueFirst_loop_mem {α : Type} [DecidableEq α] :
    ∀ (l acc : List α) (x : α),
      x ∈ l.foldl (fun acc c => if c ∈ acc then acc else acc ++ [c]) acc ↔
        x ∈ acc ∨ x ∈ l := by
  intro l
  induction l with
  | nil => intro acc x; simp
  | cons c cs ih =>
    intro acc x
    rw [List.foldl_cons, ih]
    by_cases hc : c ∈ acc
    · simp only [if_pos hc, List.mem_cons]
      constructor
      · rintro (h | h)
        · exact Or.inl h
        · exact Or.inr (Or.inr h)
      · rintro (h | h | h)
        · exact Or.inl h
        · exact Or.inl (h ▸ hc)
        · exact Or.inr h
    · simp only [if_neg hc, List.mem_append, List.mem_singleton, List.mem_cons]
      tauto

lemma uniqueFirst_loop_nodup {α : Type} [DecidableEq α] :
    ∀ (l acc : List α), acc.Nodup →
      (l.foldl (fun acc c => if c ∈ acc then acc else acc ++ [c]) acc).Nodup := by
  intro l
  induction l with
  | nil => intro acc h; exact h
  | cons c cs ih =>
    intro acc h
    rw [List.foldl_cons]
    by_cases hc : c ∈ acc
    · rw [if_pos hc]; exact ih acc h
    · rw [if_neg hc]
      refine ih _ (List.Nodup.append h (List.nodup_singleton c) ?_)
      intro x hx hx'
      rw [List.mem_singleton] at hx'
      exact hc (hx' ▸ hx)

lemma uniqueFirst_mem {α : Type} [DecidableEq α] (l : List α) (x : α) :
    x ∈ uniqueFirst l ↔ x ∈ l := by
  rw [uniqueFirst, uniqueFirst_loop_mem]
  simp

lemma uniqueFirst_nodup {α : Type} [DecidableEq α] (l : List α) :
    (uniqueFirst l).Nodup :=
  uniqueFirst_loop_nodup l [] List.nodup_nil

lemma uniqueFirst_perm {α : Type} [DecidableEq α] {l₁ l₂ : List α} (h : List.Perm l₁ l₂) :
    List.Perm (uniqueFirst l₁) (uniqueFirst l₂) :=
  (List.perm_ext_iff_of_nodup (uniqueFirst_nodup l₁) (uniqueFirst_nodup l₂)).2
    (fun a => by rw [uniqueFirst_mem, uniqueFirst_mem, h.mem_iff])

lemma foldl_min_le_init : ∀ (l : List Nat) (a : Nat), l.foldl min a ≤ a := by
  intro l
  induction l with
  | nil => intro a; exact le_refl a
  | cons x xs ih =>
    intro a
    calc (x :: xs).foldl min a = xs.foldl min (min a x) := rfl
    _ ≤ min a x := ih (min a x)
    _ ≤ a := min_le_left a x

lemma foldl_min_le_mem : ∀ (l : List Nat) (a x : Nat), x ∈ l → l.foldl min a ≤ x := by
  intro l
  induction l with
  | nil => intro a x hx; cases hx
  | cons y ys ih =>
    intro a x hx
    rcases List.mem_cons.mp hx with rfl | hx'
    · calc (x :: ys).foldl min a = ys.foldl min (min a x) := rfl
      _ ≤ min a x := foldl_min_le_init ys (min a x)
      _ ≤ x := min_le_right a x
    · exact ih (min a y) x hx'

lemma foldl_min_cases : ∀ (l : List Nat) (a : Nat),
    l.foldl min a = a ∨ l.foldl min a ∈ l := by
  intro l
  induction l with
  | nil => intro a; left; rfl
  | cons x xs ih =>
    intro a
    rcases ih (min a x) with h | h
    · rcases min_choice a x with hm | hm
      · left; rw [List.foldl_cons, h, hm]
      · right; rw [List.foldl_cons, h, hm]; exact List.mem_cons_self x xs
    · right; exact List.mem_cons_of_mem x h

lemma le_foldl_max_init : ∀ (l : List Nat) (a : Nat), a ≤ l.foldl max a := by
  intro l
  induction l with
  | nil => intro a; exact le_refl a
  | cons x xs ih =>
    intro a
    calc a ≤ max a x := le_max_left a x
    _ ≤ xs.foldl max (max a x) := ih (max a x)
    _ = (x :: xs).foldl max a := rfl

lemma le_foldl_max_mem : ∀ (l : List Nat) (a x : Nat), x ∈ l → x ≤ l.foldl max a := by
  intro l
  induction l with
  | nil => intro a x hx; cases hx
  | cons y ys ih =>
    intro a x hx
    rcases List.mem_cons.mp hx with rfl | hx'
    · calc x ≤ max a x := le_max_right a x
      _ ≤ ys.foldl max (max a x) := le_foldl_max_init ys (max a x)
      _ = (x :: ys).foldl max a := rfl
    · exact ih (max a y) x hx'

lemma foldl_max_cases : ∀ (l : List Nat) (a : Nat),
    l.foldl max a = a ∨ l.foldl max a ∈ l := by
  intro l
  induction l with
  | nil => intro a; left; rfl
  | cons x xs ih =>
    intro a
    rcases ih (max a x) with h | h
    · rcases max_choice a x with hm | hm
      · left; rw [List.foldl_cons, h, hm]
      · right; rw [List.foldl_cons, h, hm]; exact List.mem_cons_self x xs
    · right; exact List.mem_cons_of_mem x h

lemma mem_of_getLast?_eq_some {α : Type} :
    ∀ {l : List α} {b : α}, l.getLast? = some b → b ∈ l := by
  intro l
  induction l with
  | nil => intro b h; cases h
  | cons x xs ih =>
    intro b h
    cases xs with
    | nil =>
      rw [List.getLast?_singleton] at h
      cases h
      exact List.mem_singleton_self x
    | cons y ys =>
      rw [List.getLast?_cons_cons] at h
      exact List.mem_cons_of_mem x (ih h)

lemma le_last_of_sorted :
    ∀ {l : List CatRow},
      List.Sorted (fun a b : CatRow => a.deportees ≤ b.deportees) l →
      ∀ a ∈ l, ∀ b, l.getLast? = some b → a.deportees ≤ b.deportees := by
  intro l
  induction l with
  | nil => intro _ a ha; cases ha
  | cons x xs ih =>
    intro hs a ha b hb
    cases xs with
    | nil =>
      rw [List.mem_singleton] at ha
      rw [List.getLast?_singleton] at hb
      cases hb
      rw [ha]
    | cons y ys =>
      rw [List.getLast?_cons_cons] at hb
      rcases List.mem_cons.mp ha with rfl | ha'
      · have hbmem : b ∈ y :: ys := mem_of_getLast?_eq_some hb
        exact (List.sorted_cons.mp hs).1 b hbmem
      · exact ih (List.sorted_cons.mp hs).2 a ha' b hb

lemma groupCat_key_mem (key : FlightRecord → String) (rs : List FlightRecord) :
    ∀ row ∈ groupCat key rs, row.key ∈ rs.map key := by
  intro row hrow
  obtain ⟨k, hk, hbuild⟩ := List.mem_map.mp hrow
  have hkey : row.key = k := by rw [← hbuild]
  have hk' : k ∈ uniqueFirst (rs.map key) := by
    have hperm : List.Perm
        (List.insertionSort (fun a b : String => strLe a b = true) (uniqueFirst (rs.map key)))
        (uniqueFirst (rs.map key)) := List.perm_insertionSort _ _
    exact (List.Perm.mem_iff hperm).mp hk
  rw [hkey]
  exact (uniqueFirst_mem _ _).mp hk'

lemma mem_of_mem_sort_values {l : List CatRow} {row : CatRow}
    (h : row ∈ sort_values_deportees l) : row ∈ l :=
  (List.Perm.mem_iff (List.perm_insertionSort _ _)).mp h

lemma find?_pred {α : Type} (p : α → Bool) (l : List α) (a : α) (h : l.find? p = some a) :
    p a = true :=
  List.find?_some h

lemma fillDaily_cons {α : Type} (dateOf : α → Nat) (zeroAt : Nat → α) (r0 : α) (rest : List α) :
    fillDaily dateOf zeroAt (r0 :: rest) =
      (List.range (maxDateOf dateOf r0 rest + 1 - minDateOf dateOf r0 rest)).map
        (fun i =>
          match (r0 :: rest).find? (fun r => dateOf r = minDateOf dateOf r0 rest + i) with
          | some r => r
          | none => zeroAt (minDateOf dateOf r0 rest + i)) := rfl

lemma fillDaily_map_date {α : Type} (dateOf : α → Nat) (zeroAt : Nat → α)
    (hz : ∀ d, dateOf (zeroAt d) = d) (r0 : α) (rest : List α) :
    (fillDaily dateOf zeroAt (r0 :: rest)).map dateOf =
      List.range' (minDateOf dateOf r0 rest)
        (maxDateOf dateOf r0 rest + 1 - minDateOf dateOf r0 rest) := by
  rw [fillDaily_cons, List.map_map, List.range'_eq_map_range]
  apply List.map_congr_left
  intro i _
  simp only [Function.comp_apply]
  cases hfind : (r0 :: rest).find? (fun r => dateOf r = minDateOf dateOf r0 rest + i) with
  | none => exact hz _
  | some r =>
    show dateOf r = minDateOf dateOf r0 rest + i
    exact of_decide_eq_true
      (find?_pred (fun x => decide (dateOf x = minDateOf dateOf r0 rest + i))
        (r0 :: rest) r hfind)

lemma fillDaily_mem {α : Type} (dateOf : α → Nat) (zeroAt : Nat → α)
    (hz : ∀ d, dateOf (zeroAt d) = d) (r0 : α) (rest : List α) :
    ∀ r ∈ fillDaily dateOf zeroAt (r0 :: rest), r ∈ r0 :: rest ∨ r = zeroAt (dateOf r) := by
  intro r hr
  rw [fillDaily_cons] at hr
  obtain ⟨i, _, hpick⟩ := List.mem_map.mp hr
  cases hfind : (r0 :: rest).find? (fun r => dateOf r = minDateOf dateOf r0 rest + i) with
  | some r' =>
    rw [hfind] at hpick
    exact Or.inl (hpick ▸ List.mem_of_find?_eq_some hfind)
  | none =>
    rw [hfind] at hpick
    right
    rw [← hpick, hz]

/-! Claim theorems. -/

/-- C3: for every non-empty per-date aggregate input, the gap-filled output
is exactly one row per calendar day from the minimum to the maximum input
date inclusive, sorted ascending (its date column equals the consecutive
range), and every output row is either an input row or a zero-filled row
(numeric columns 0, string columns empty); for an empty input the output is
empty.  Stated for all three gap-filled series of the pipeline (daily
summary, flights per day, offloaded per day). -/
theorem c3_gap_fill_complete :
    fillDaily DailyRow.date daily_zero [] = [] ∧
    fillDaily FlightCountRow.date (fun d => { date := d, flight_count := 0 }) [] = [] ∧
    fillDaily OffloadRow.date (fun d => { date := d, deportees_off := 0 }) [] = [] ∧
    (∀ (r0 : DailyRow) (rest : List DailyRow),
      (minDateOf DailyRow.date r0 rest ∈ (r0 :: rest).map DailyRow.date ∧
        ∀ d ∈ (r0 :: rest).map DailyRow.date, minDateOf DailyRow.date r0 rest ≤ d) ∧
      (maxDateOf DailyRow.date r0 rest ∈ (r0 :: rest).map DailyRow.date ∧
        ∀ d ∈ (r0 :: rest).map DailyRow.date, d ≤ maxDateOf DailyRow.date r0 rest) ∧
      (fillDaily DailyRow.date daily_zero (r0 :: rest)).map DailyRow.date =
        List.range' (minDateOf DailyRow.date r0 rest)
          (maxDateOf DailyRow.date r0 rest + 1 - minDateOf DailyRow.date r0 rest) ∧
      ∀ r ∈ fillDaily DailyRow.date daily_zero (r0 :: rest),
        r ∈ r0 :: rest ∨
          (r.deportees = 0 ∧ r.observed = 0 ∧ r.estimated = 0 ∧ r.est_method = "")) ∧
    (∀ (r0 : FlightCountRow) (rest : List FlightCountRow),
      (fillDaily FlightCountRow.date (fun d => { date := d, flight_count := 0 })
          (r0 :: rest)).map FlightCountRow.date =
        List.range' (minDateOf FlightCountRow.date r0 rest)
          (maxDateOf FlightCountRow.date r0 rest + 1 - minDateOf FlightCountRow.date r0 rest) ∧
      ∀ r ∈ fillDaily FlightCountRow.date (fun d => { date := d, flight_count := 0 })
          (r0 :: rest),
        r ∈ r0 :: rest ∨ r.flight_count = 0) ∧
    (∀ (r0 : OffloadRow) (rest : List OffloadRow),
      (fillDaily OffloadRow.date (fun d => { date := d, deportees_off := 0 })
          (r0 :: rest)).map OffloadRow.date =
        List.range' (minDateOf OffloadRow.date r0 rest)
          (maxDateOf OffloadRow.date r0 rest + 1 - minDateOf OffloadRow.date r0 rest) ∧
      ∀ r ∈ fillDaily OffloadRow.date (fun d => { date := d, deportees_off := 0 })
          (r0 :: rest),
        r ∈ r0 :: rest ∨ r.deportees_off = 0) := by
  refine ⟨rfl, rfl, rfl, ?_, ?_, ?_⟩
  · intro r0 rest
    refine ⟨⟨?_, ?_⟩, ⟨?_, ?_⟩, ?_, ?_⟩
    · show ((r0 :: rest).map DailyRow.date).foldl min (DailyRow.date r0) ∈
        (r0 :: rest).map DailyRow.date
      rcases foldl_min_cases ((r0 :: rest).map DailyRow.date) (DailyRow.date r0) with h | h
      · rw [h]; exact List.mem_map_of_mem DailyRow.date (List.mem_cons_self r0 rest)
      · exact h
    · intro d hd; exact foldl_min_le_mem _ _ d hd
    · show ((r0 :: rest).map DailyRow.date).foldl max (DailyRow.date r0) ∈
        (r0 :: rest).map DailyRow.date
      rcases foldl_max_cases ((r0 :: rest).map DailyRow.date) (DailyRow.date r0) with h | h
      · rw [h]; exact List.mem_map_of_mem DailyRow.date (List.mem_cons_self r0 rest)
      · exact h
    · intro d hd; exact le_foldl_max_mem _ _ d hd
    · exact fillDaily_map_date DailyRow.date daily_zero (fun _ => rfl) r0 rest
    · intro r hr
      rcases fillDaily_mem DailyRow.date daily_zero (fun _ => rfl) r0 rest r hr with h | h
      · exact Or.inl h
      · exact Or.inr ⟨by rw [h]; rfl, by rw [h]; rfl, by rw [h]; rfl, by rw [h]; rfl⟩
  · intro r0 rest
    refine ⟨?_, ?_⟩
    · exact fillDaily_map_date FlightCountRow.date
        (fun d => { date := d, flight_count := 0 }) (fun _ => rfl) r0 rest
    · intro r hr
      rcases fillDaily_mem FlightCountRow.date (fun d => { date := d, flight_count := 0 })
          (fun _ => rfl) r0 rest r hr with h | h
      · exact Or.inl h
      · exact Or.inr (by rw [h])
  · intro r0 rest
    refine ⟨?_, ?_⟩
    · exact fillDaily_map_date OffloadRow.date
        (fun d => { date := d, deportees_off := 0 }) (fun _ => rfl) r0 rest
    · intro r hr
      rcases fillDaily_mem OffloadRow.date (fun d => { date := d, deportees_off := 0 })
          (fun _ => rfl) r0 rest r hr with h | h
      · exact Or.inl h
      · exact Or.inr (by rw [h])

/-- Witness for C3: the gap-filled series over input days 3 and 5 receives a
zero row for the missing day 4. -/
theorem c3_witness :
    daily_zero 4 ∈
        [({ date := 3, deportees := 5, observed := 2, estimated := 3, est_method := "m" } : DailyRow),
         { date := 5, deportees := 7, observed := 7, estimated := 0, est_method := "" }] ∨
      ((daily_zero 4).deportees = 0 ∧ (daily_zero 4).observed = 0 ∧
        (daily_zero 4).estimated = 0 ∧ (daily_zero 4).est_method = "") :=
  (c3_gap_fill_complete.2.2.2.1
      { date := 3, deportees := 5, observed := 2, estimated := 3, est_method := "m" }
      [{ date := 5, deportees := 7, observed := 7, estimated := 0, est_method := "" }]).2.2.2
    (daily_zero 4) (by decide)

/-- C1 counterexample: a raw row whose total-deportee-count is null survives
normalization (total stays absent) and still contributes to flights-per-day,
offloaded-per-day and the by-airline and by-destination aggregates; only the
daily-totals summary drops it.  This contradicts the claim that such a record
is excluded from every aggregate. -/
theorem c1_counterexample :
    load_data [c1_raw_row] = Except.ok [c1_record] ∧
    c1_record.deportees = none ∧
    aggregate_flights_per_day [c1_record] = [{ date := 5, flight_count := 1 }] ∧
    aggregate_detainees_offloaded_per_day [c1_record] = [{ date := 5, deportees_off := 4 }] ∧
    aggregate_detainees_by_airline [c1_record] =
      [{ key := "Delta", deportees := 0, observed := 0, estimated := 0, est_method := "" }] ∧
    aggregate_detainees_by_destination [c1_record] =
      [{ key := "ORD", deportees := 0, observed := 0, estimated := 0, est_method := "" }] ∧
    daily_summary [c1_record] = [] := by decide

/-- C1 (amended): a record with a null total-deportee-count is excluded from
the daily-totals aggregate, but not from the other four: flights-per-day
counts it, and offloaded-per-day, by-airline and by-destination all produce
output from it. -/
theorem c1_null_total_daily_only :
    (∀ (r : FlightRecord) (rs : List FlightRecord), r.deportees = none →
      daily_summary (r :: rs) = daily_summary rs) ∧
    aggregate_flights_per_day [c1_record] ≠ [] ∧
    aggregate_detainees_offloaded_per_day [c1_record] ≠ [] ∧
    aggregate_detainees_by_airline [c1_record] ≠ [] ∧
    aggregate_detainees_by_destination [c1_record] ≠ [] := by
  refine ⟨?_, by decide, by decide, by decide, by decide⟩
  intro r rs h
  have hf : (r :: rs).filter (fun x => x.deportees.isSome) =
      rs.filter (fun x => x.deportees.isSome) := by
    simp [List.filter_cons, h]
  simp only [daily_summary]
  rw [hf]

/-- Witness for C1: the amended daily-exclusion statement applied to the
concrete null-total record. -/
theorem c1_witness : daily_summary [c1_record] = daily_summary [] :=
  c1_null_total_daily_only.1 c1_record [] (by decide)

/-- C2 counterexample: an unparseable observed-count cell makes the load
fail, contradicting the claim that observed-count coercion is best-effort and
never raises. -/
theorem c2_counterexample :
    coerceRaise (Value.str "abc") = Except.error "Unable to parse string abc" ∧
    load_data [c2_raw_row] = Except.error "Unable to parse string abc" := by decide

/-- C2 (amended): offloaded-count coercion is best-effort (null or
unparseable contributes 0, never an error), while observed-count defaults to
0 only when the cell is absent (null); an unparseable observed-count fails
row normalization. -/
theorem c2_lenient_vs_strict :
    (∀ s : String, pyToInt s = none → offloadedValue (Value.str s) = 0) ∧
    offloadedValue Value.null = 0 ∧
    (∀ (row : RawRow) (rec : FlightRecord), normalizeRow row = Except.ok rec →
      row.deportee_observed = Value.null → rec.observed = 0) ∧
    (∀ row : RawRow, (coerceRaise row.deportee_observed).isOk = false →
      (normalizeRow row).isOk = false) := by
  refine ⟨?_, rfl, ?_, ?_⟩
  · intro s h
    simp [offloadedValue, coerceLenient, h]
  · intro row rec h hobs
    cases hd : coerceRaise row.deportees with
    | error e => simp [normalizeRow, hd] at h
    | ok total =>
      have hnull : coerceRaise Value.null = Except.ok none := rfl
      simp only [normalizeRow, hd, hobs, hnull, Except.ok.injEq] at h
      subst h
      rfl
  · intro row h
    cases hd : coerceRaise row.deportees with
    | error e => simp [normalizeRow, hd, Except.isOk, Except.toBool]
    | ok total =>
      cases ho : coerceRaise row.deportee_observed with
      | error e => simp [normalizeRow, hd, ho, Except.isOk, Except.toBool]
      | ok obs => rw [ho] at h; simp [Except.isOk, Except.toBool] at h

/-- Witness for C2: the lenient offloaded coercion applied to a concrete
unparseable cell. -/
theorem c2_witness : offloadedValue (Value.str "xyz") = 0 :=
  c2_lenient_vs_strict.1 "xyz" (by decide)

/-- C4: for every raw row that normalizes successfully, the estimated count
equals total minus observed exactly (absent exactly when the total is
absent), and it is not clamped when negative: a row with total 3 and
observed 5 normalizes to estimated -2. -/
theorem c4_estimated_exact :
    (∀ (row : RawRow) (rec : FlightRecord), normalizeRow row = Except.ok rec →
      rec.estimated = rec.deportees.map (fun t => t - rec.observed)) ∧
    normalizeRow c4_raw_row = Except.ok c4_record ∧
    c4_record.estimated = some (-2) := by
  refine ⟨?_, by decide, by decide⟩
  intro row rec h
  cases hd : coerceRaise row.deportees with
  | error e => simp [normalizeRow, hd] at h
  | ok total =>
    cases ho : coerceRaise row.deportee_observed with
    | error e => simp [normalizeRow, hd, ho] at h
    | ok obs =>
      simp only [normalizeRow, hd, ho, Except.ok.injEq] at h
      subst h
      rfl

/-- Witness for C4: the invariant applied to the concrete negative-estimate
row. -/
theorem c4_witness :
    c4_record.estimated = c4_record.deportees.map (fun t => t - c4_record.observed) :=
  c4_estimated_exact.1 c4_raw_row c4_record (by decide)

lemma final_from_stops (stops : List String) :
    (match stops.getLast? with
     | none => none
     | some last =>
       if 2 ≤ stops.length ∧ pyUpper last = "MSP" then
         (stops[stops.length - 2]?).map (fun t => pyUpper t)
       else some (pyUpper last)) =
      (match stops.reverse with
       | [] => none
       | [a] => some (pyUpper a)
       | a :: b :: _ => if pyUpper a = "MSP" then some (pyUpper b) else some (pyUpper a)) := by
  cases hr : stops.reverse with
  | nil =>
    have hs : stops = [] := by
      have h2 := congrArg List.reverse hr
      rwa [List.reverse_reverse] at h2
    subst hs
    rfl
  | cons a t =>
    cases t with
    | nil =>
      have hs : stops = [a] := by
        have h2 := congrArg List.reverse hr
        rw [List.reverse_reverse] at h2
        simpa using h2
      subst hs
      simp
    | cons b t' =>
      have hlast : stops.getLast? = some a := by
        rw [← List.head?_reverse, hr]
        rfl
      have hlen2 : stops.length = t'.length + 2 := by
        have h2 : stops.reverse.length = t'.length + 2 := by
          rw [hr]
          simp only [List.length_cons]
        rwa [List.length_reverse] at h2
      have hlen : 2 ≤ stops.length := by omega
      have hidx : stops[stops.length - 2]? = some b := by
        have h1 : (1 : Nat) < stops.length := by omega
        have h2 := @List.getElem?_reverse String stops 1 h1
        rw [hr] at h2
        have h3 : stops.length - 1 - 1 = stops.length - 2 := by omega
        rw [h3] at h2
        simpa using h2.symm
      simp only [hlast, hidx, hr]
      by_cases hm : pyUpper a = "MSP"
      · rw [if_pos ⟨hlen, hm⟩, if_pos hm]
        rfl
      · rw [if_neg (fun hc => hm hc.2), if_neg hm]

/-- C5 counterexample: the route "HRL-MSP-OMA-HRL" ends at "HRL", which is
not "MSP", so the code returns "HRL", not "OMA" as the claim asserts. -/
theorem c5_counterexample :
    parse_final_destination (Value.str "HRL-MSP-OMA-HRL") ≠ some "OMA" ∧
    parse_final_destination (Value.str "HRL-MSP-OMA-HRL") = some "HRL" := by decide

/-- C5 (amended): final-destination is derived by splitting the route on
dashes, trimming segments and dropping empty ones; with at least 2 stops and
the last equal to "MSP" (case-insensitive) the result is the second-to-last
stop upper-cased, otherwise the last stop upper-cased; absent, blank or
non-string routes give null; in particular "HRL-MSP-OMA-HRL" yields "HRL"
(its last stop is not MSP), "OMA-MSP" yields "OMA", and "MSP-ORD" yields
"ORD". -/
theorem c5_final_destination :
    (∀ s : String, pyStrip s = "" → parse_final_destination (Value.str s) = none) ∧
    parse_final_destination Value.null = none ∧
    (∀ n : Int, parse_final_destination (Value.num n) = none) ∧
    (∀ s : String, pyStrip s ≠ "" →
      parse_final_destination (Value.str s) =
        (match (((pySplit '-' s).map (fun t => pyStrip t)).filter (fun t => t ≠ "")).reverse with
         | [] => none
         | [a] => some (pyUpper a)
         | a :: b :: _ => if pyUpper a = "MSP" then some (pyUpper b) else some (pyUpper a))) ∧
    parse_final_destination (Value.str "HRL-MSP-OMA-HRL") = some "HRL" ∧
    parse_final_destination (Value.str "OMA-MSP") = some "OMA" ∧
    parse_final_destination (Value.str "MSP-ORD") = some "ORD" := by
  refine ⟨?_, rfl, fun n => rfl, ?_, by decide, by decide, by decide⟩
  · intro s h
    simp [parse_final_destination, h]
  · intro s h
    simp only [parse_final_destination, if_neg h]
    exact final_from_stops _

/-- Witness for C5: the blank-route clause applied to a whitespace route. -/
theorem c5_witness : parse_final_destination (Value.str "   ") = none :=
  c5_final_destination.1 "   " (by decide)

/-- C6: the merged estimation-method summary is invariant under reordering of
the input codes, is the empty string for an empty bucket or when no code maps
into the vocabulary, and on a concrete bucket it strips, sorts, maps and
joins the codes with a semicolon separator. -/
theorem c6_summary_merge :
    (∀ c1 c2 : List (Option String), List.Perm c1 c2 →
      format_est_methods c1 = format_est_methods c2) ∧
    format_est_methods [] = "" ∧
    (∀ codes : List (Option String),
      (∀ s ∈ codes.filterMap id, EST_METHOD_DESCRIPTIONS (pyStrip s) = none) →
      format_est_methods codes = "") ∧
    format_est_methods [some "O", none, some "A"] =
      "Average based on similar flights in same timeframe; Estimate based on an observer who was present, but not directly counting" := by
  refine ⟨?_, rfl, ?_, by decide⟩
  · intro c1 c2 h
    have hX : List.Perm
        ((uniqueFirst (c1.filterMap id)).map (fun c => pyStrip c))
        ((uniqueFirst (c2.filterMap id)).map (fun c => pyStrip c)) :=
      (uniqueFirst_perm (h.filterMap id)).map _
    have hsort :
        List.insertionSort (fun a b : String => strLe a b = true)
          ((uniqueFirst (c1.filterMap id)).map (fun c => pyStrip c)) =
        List.insertionSort (fun a b : String => strLe a b = true)
          ((uniqueFirst (c2.filterMap id)).map (fun c => pyStrip c)) :=
      List.eq_of_perm_of_sorted
        ((List.perm_insertionSort _ _).trans (hX.trans (List.perm_insertionSort _ _).symm))
        (List.sorted_insertionSort _ _) (List.sorted_insertionSort _ _)
    simp only [format_est_methods]
    rw [hsort]
  · intro codes hnone
    have hnil :
        (List.insertionSort (fun a b : String => strLe a b = true)
          ((uniqueFirst (codes.filterMap id)).map (fun c => pyStrip c))).filterMap
          EST_METHOD_DESCRIPTIONS = [] := by
      rw [List.filterMap_eq_nil_iff]
      intro a ha
      have ha' : a ∈ (uniqueFirst (codes.filterMap id)).map (fun c => pyStrip c) :=
        (List.Perm.mem_iff (List.perm_insertionSort _ _)).mp ha
      obtain ⟨c, hc, rfl⟩ := List.mem_map.mp ha'
      exact hnone c ((uniqueFirst_mem _ _).mp hc)
    simp only [format_est_methods]
    rw [hnil]
    rfl

/-- Witness for C6: order-independence applied to a concrete reordering. -/
theorem c6_witness :
    format_est_methods [some "V", some "A"] = format_est_methods [some "A", some "V"] :=
  c6_summary_merge.1 _ _ (by decide)

/-- C7: the by-airline aggregate excludes null-airline records before
grouping and normalizes the key by strip plus title-case: over airlines
[null, "Delta", "delta"] with totals [5, 3, 2] it returns the single row
"Delta" with total 5, and airline "  delta " lands in bucket "Delta". -/
theorem c7_by_airline :
    aggregate_detainees_by_airline [c7_null_airline, c7_delta, c7_delta_lower] =
      [{ key := "Delta", deportees := 5, observed := 0, estimated := 5, est_method := "" }] ∧
    aggregate_detainees_by_airline [c7_spaced] =
      [{ key := "Delta", deportees := 2, observed := 0, estimated := 2, est_method := "" }] ∧
    (∀ fd : List FlightRecord,
      aggregate_detainees_by_airline fd =
        aggregate_detainees_by_airline (fd.filter (fun r => r.airline.isSome))) ∧
    (∀ fd : List FlightRecord, ∀ row ∈ aggregate_detainees_by_airline fd,
      ∃ a : String, some a ∈ fd.map (fun r => r.airline) ∧
        row.key = str_title (pyStrip a)) := by
  refine ⟨by decide, by decide, ?_, ?_⟩
  · intro fd
    simp [aggregate_detainees_by_airline, List.filter_filter]
  · intro fd row hrow
    have h1 : row ∈ groupCat (fun r => r.airline.getD "")
        ((fd.filter (fun r => r.airline.isSome)).map
          (fun r => { r with airline := r.airline.map (fun a => str_title (pyStrip a)) })) :=
      mem_of_mem_sort_values hrow
    have h2 := groupCat_key_mem _ _ row h1
    rw [List.map_map] at h2
    obtain ⟨r0, hr0, hkey⟩ := List.mem_map.mp h2
    have hsome : r0.airline.isSome = true := (List.mem_filter.mp hr0).2
    obtain ⟨a, ha⟩ := Option.isSome_iff_exists.mp hsome
    refine ⟨a, ?_, ?_⟩
    · have hmem : r0.airline ∈ fd.map (fun r => r.airline) :=
        List.mem_map_of_mem (fun r => r.airline) (List.mem_filter.mp hr0).1
      rwa [ha] at hmem
    · rw [← hkey]
      simp [Function.comp, ha]

/-- Witness for C7: the key-provenance clause applied to the concrete
whitespace-airline record. -/
theorem c7_witness :
    ∃ a : String, some a ∈ [c7_spaced].map (fun r => r.airline) ∧
      ({ key := "Delta", deportees := 2, observed := 0, estimated := 2, est_method := "" }
          : CatRow).key = str_title (pyStrip a) :=
  c7_by_airline.2.2.2 [c7_spaced]
    { key := "Delta", deportees := 2, observed := 0, estimated := 2, est_method := "" }
    (by decide)

/-- C8: each category-keyed aggregate output is sorted ascending by the
summed total-deportee-count, and consequently every row's total is at most
the last row's total. -/
theorem c8_sorted_ascending :
    ∀ fd : List FlightRecord,
      List.Sorted (fun a b : CatRow => a.deportees ≤ b.deportees)
          (aggregate_detainees_by_airline fd) ∧
      List.Sorted (fun a b : CatRow => a.deportees ≤ b.deportees)
          (aggregate_detainees_by_destination fd) ∧
      List.Sorted (fun a b : CatRow => a.deportees ≤ b.deportees)
          (aggregate_detainees_by_final_destination fd) ∧
      List.Sorted (fun a b : CatRow => a.deportees ≤ b.deportees)
          (aggregate_detainees_by_tail fd) ∧
      (∀ row ∈ aggregate_detainees_by_airline fd, ∀ lastRow,
        (aggregate_detainees_by_airline fd).getLast? = some lastRow →
        row.deportees ≤ lastRow.deportees) ∧
      (∀ row ∈ aggregate_detainees_by_destination fd, ∀ lastRow,
        (aggregate_detainees_by_destination fd).getLast? = some lastRow →
        row.deportees ≤ lastRow.deportees) ∧
      (∀ row ∈ aggregate_detainees_by_final_destination fd, ∀ lastRow,
        (aggregate_detainees_by_final_destination fd).getLast? = some lastRow →
        row.deportees ≤ lastRow.deportees) ∧
      (∀ row ∈ aggregate_detainees_by_tail fd, ∀ lastRow,
        (aggregate_detainees_by_tail fd).getLast? = some lastRow →
        row.deportees ≤ lastRow.deportees) := by
  intro fd
  refine ⟨List.sorted_insertionSort _ _, List.sorted_insertionSort _ _,
    List.sorted_insertionSort _ _, List.sorted_insertionSort _ _, ?_, ?_, ?_, ?_⟩
  · exact fun row hrow lastRow hlast =>
      le_last_of_sorted (List.sorted_insertionSort _ _) row hrow lastRow hlast
  · exact fun row hrow lastRow hlast =>
      le_last_of_sorted (List.sorted_insertionSort _ _) row hrow lastRow hlast
  · exact fun row hrow lastRow hlast =>
      le_last_of_sorted (List.sorted_insertionSort _ _) row hrow lastRow hlast
  · exact fun row hrow lastRow hlast =>
      le_last_of_sorted (List.sorted_insertionSort _ _) row hrow lastRow hlast

/-- Witness for C8: the last-row-is-maximum consequence applied to a
concrete by-airline aggregate. -/
theorem c8_witness :
    ({ key := "Delta", deportees := 3, observed := 0, estimated := 3, est_method := "" }
        : CatRow).deportees ≤
      ({ key := "Delta", deportees := 3, observed := 0, estimated := 3, est_method := "" }
        : CatRow).deportees :=
  (c8_sorted_ascending [c7_delta]).2.2.2.2.1
    { key := "Delta", deportees := 3, observed := 0, estimated := 3, est_method := "" }
    (by decide)
    { key := "Delta", deportees := 3, observed := 0, estimated := 3, est_method := "" }
    (by decide)

/-- C9 counterexample: the by-destination aggregate does not trim its key:
destinations "ORD" and " ORD" form two distinct buckets, and the key " ORD"
keeps its leading whitespace. -/
theorem c9_counterexample :
    aggregate_detainees_by_destination [c9_ord, c9_ord_spaced] =
      [{ key := " ORD", deportees := 1, observed := 0, estimated := 1, est_method := "" },
       { key := "ORD", deportees := 2, observed := 0, estimated := 2, est_method := "" }] ∧
    pyStrip " ORD" = "ORD" := by decide

/-- C9 (amended): null-key records are excluded before grouping in the
by-destination, by-final-destination and by-tail aggregates; the tail key is
trimmed before grouping, while the destination key is used exactly as stored
(untrimmed) and the final-destination key is the derived field. -/
theorem c9_category_key_handling :
    (∀ fd : List FlightRecord,
      aggregate_detainees_by_destination fd =
        aggregate_detainees_by_destination (fd.filter (fun r => r.to_dest.isSome))) ∧
    (∀ fd : List FlightRecord,
      aggregate_detainees_by_final_destination fd =
        aggregate_detainees_by_final_destination
          (fd.filter (fun r => r.final_destination.isSome))) ∧
    (∀ fd : List FlightRecord,
      aggregate_detainees_by_tail fd =
        aggregate_detainees_by_tail (fd.filter (fun r => r.tail.isSome))) ∧
    (∀ fd : List FlightRecord, ∀ row ∈ aggregate_detainees_by_destination fd,
      ∃ d : String, some d ∈ fd.map (fun r => r.to_dest) ∧ row.key = d) ∧
    (∀ fd : List FlightRecord, ∀ row ∈ aggregate_detainees_by_final_destination fd,
      ∃ d : String, some d ∈ fd.map (fun r => r.final_destination) ∧ row.key = d) ∧
    (∀ fd : List FlightRecord, ∀ row ∈ aggregate_detainees_by_tail fd,
      ∃ t : String, some t ∈ fd.map (fun r => r.tail) ∧ row.key = pyStrip t) ∧
    aggregate_detainees_by_tail [c9_tail_spaced] =
      [{ key := "N123", deportees := 1, observed := 0, estimated := 1, est_method := "" }] ∧
    aggregate_detainees_by_destination [c9_ord_spaced] =
      [{ key := " ORD", deportees := 1, observed := 0, estimated := 1, est_method := "" }] := by
  refine ⟨?_, ?_, ?_, ?_, ?_, ?_, by decide, by decide⟩
  · intro fd
    simp [aggregate_detainees_by_destination, List.filter_filter]
  · intro fd
    simp [aggregate_detainees_by_final_destination, List.filter_filter]
  · intro fd
    simp [aggregate_detainees_by_tail, List.filter_filter]
  · intro fd row hrow
    have h1 : row ∈ groupCat (fun r => r.to_dest.getD "")
        (fd.filter (fun r => r.to_dest.isSome)) := mem_of_mem_sort_values hrow
    have h2 := groupCat_key_mem _ _ row h1
    obtain ⟨r0, hr0, hkey⟩ := List.mem_map.mp h2
    have hsome : r0.to_dest.isSome = true := (List.mem_filter.mp hr0).2
    obtain ⟨d, hd⟩ := Option.isSome_iff_exists.mp hsome
    refine ⟨d, ?_, ?_⟩
    · have hmem : r0.to_dest ∈ fd.map (fun r => r.to_dest) :=
        List.mem_map_of_mem (fun r => r.to_dest) (List.mem_filter.mp hr0).1
      rwa [hd] at hmem
    · rw [← hkey]
      simp [hd]
  · intro fd row hrow
    have h1 : row ∈ groupCat (fun r => r.final_destination.getD "")
        (fd.filter (fun r => r.final_destination.isSome)) := mem_of_mem_sort_values hrow
    have h2 := groupCat_key_mem _ _ row h1
    obtain ⟨r0, hr0, hkey⟩ := List.mem_map.mp h2
    have hsome : r0.final_destination.isSome = true := (List.mem_filter.mp hr0).2
    obtain ⟨d, hd⟩ := Option.isSome_iff_exists.mp hsome
    refine ⟨d, ?_, ?_⟩
    · have hmem : r0.final_destination ∈ fd.map (fun r => r.final_destination) :=
        List.mem_map_of_mem (fun r => r.final_destination) (List.mem_filter.mp hr0).1
      rwa [hd] at hmem
    · rw [← hkey]
      simp [hd]
  · intro fd row hrow
    have h1 : row ∈ groupCat (fun r => r.tail.getD "")
        ((fd.filter (fun r => r.tail.isSome)).map
          (fun r => { r with tail := r.tail.map (fun t => pyStrip t) })) :=
      mem_of_mem_sort_values hrow
    have h2 := groupCat_key_mem _ _ row h1
    rw [List.map_map] at h2
    obtain ⟨r0, hr0, hkey⟩ := List.mem_map.mp h2
    have hsome : r0.tail.isSome = true := (List.mem_filter.mp hr0).2
    obtain ⟨t, ht⟩ := Option.isSome_iff_exists.mp hsome
    refine ⟨t, ?_, ?_⟩
    · have hmem : r0.tail ∈ fd.map (fun r => r.tail) :=
        List.mem_map_of_mem (fun r => r.tail) (List.mem_filter.mp hr0).1
      rwa [ht] at hmem
    · rw [← hkey]
      simp [Function.comp, ht]

/-- Witness for C9: the destination key-provenance clause applied to the
concrete untrimmed-destination record. -/
theorem c9_witness :
    ∃ d : String, some d ∈ [c9_ord_spaced].map (fun r => r.to_dest) ∧
      ({ key := " ORD", deportees := 1, observed := 0, estimated := 1, est_method := "" }
          : CatRow).key = d :=
  c9_category_key_handling.2.2.2.1 [c9_ord_spaced]
    { key := " ORD", deportees := 1, observed := 0, estimated := 1, est_method := "" }
    (by decide)

set_option maxRecDepth 8192 in
/-- C10: the summarizer deduplicates raw code values before stripping, so a
bucket holding the codes "V" and " V" (distinct raw, equal after stripping)
yields the same description twice, joined with the semicolon separator. -/
theorem c10_duplicate_descriptions :
    ("V" : String) ≠ " V" ∧
    pyStrip " V" = pyStrip "V" ∧
    format_est_methods [some "V", some " V"] =
      "Formula based on the number and types of vehicles bringing detainees to the flight; Formula based on the number and types of vehicles bringing detainees to the flight" := by
  decide

end MspIceFlights
